import Mathlib

/-!
Verification of the Frisbee scenario-execution engine against its
natural-language specification.

Each definition below is a shallow embedding of a function from the Go
sources, translated clause by clause:

* `GetNextLogicalJob`      — controllers/scenario/scheduler.go
* `stopCalculateLifecycle` — controllers/stop/lifecycle.go
* `callCalculateLifecycle` — controllers/call/lifecycle.go
* `GroupedJobs`            — pkg/lifecycle (absent from the sources; modelled
                             from the specification, see its doc comment)
* `getNextScheduleTime`    — pkg/netutils/ip.go (scheduler part)
* `ValidateDAG`            — controllers/workflow/validate.go
* `PrepareDependencyGraph` — controllers/testplan/graph.go
* `Containers`             — controllers/common/lifecycle/accessor.go
* `importTelemetry`        — the telemetry-import step of decoratePod
                             (service controller)

Machine integers are modelled as `Int`/`Nat` (no overflow is relevant to the
properties at hand), `time.Time` values as `Int` instants, Go `nil` pointers
as `Option`, and a Go `panic` as an `Option`/sum result.  External
collaborators (cron parsing, the expression engine, the Kubernetes
qualified-name validator) are parameters of the embedded functions.
-/

namespace Frisbee

/-- Lifecycle phases of v1alpha1 (PhaseUninitialized .. PhaseFailed). -/
inductive Phase
  | uninitialized
  | pending
  | running
  | success
  | failed
deriving DecidableEq, Repr

/-- Lifecycle block of v1alpha1: phase, reason and message. -/
structure Lifecycle where
  phase : Phase
  reason : String
  message : String
deriving DecidableEq, Repr

/-- metav1.Condition restricted to the fields the embedded code reads or
writes (LastTransitionTime and ObservedGeneration are never consulted). -/
structure Condition where
  condType : String
  status : String
  reason : String
  message : String
deriving DecidableEq, Repr

/-- The zero value `metav1.Condition{}` used as a sentinel in stop/lifecycle.go. -/
def emptyCondition : Condition :=
  ⟨"", "", "", ""⟩

/-- meta.SetStatusCondition (k8s.io/apimachinery): replace the condition with
the same type if present, otherwise append. -/
def setStatusCondition (conds : List Condition) (c : Condition) : List Condition :=
  if conds.any (fun x => x.condType == c.condType) then
    conds.map (fun x => if x.condType == c.condType then c else x)
  else
    conds ++ [c]

/-- meta.IsStatusConditionTrue (k8s.io/apimachinery). -/
def isStatusConditionTrue (conds : List Condition) (t : String) : Bool :=
  match conds.find? (fun x => x.condType == t) with
  | some c => c.status == "True"
  | none => false

/-- Condition-type constants of v1alpha1; the string values mirror the
constant names (their exact values never matter, only their identity). -/
def conditionAllJobsScheduled : String := "AllJobsScheduled"

/-- v1alpha1.ConditionAllJobsAreScheduled. -/
def conditionAllJobsAreScheduled : String := "AllJobsAreScheduled"

/-- v1alpha1.ConditionAllJobsCompleted. -/
def conditionAllJobsCompleted : String := "AllJobsCompleted"

/-- v1alpha1.ConditionAllJobsAreCompleted. -/
def conditionAllJobsAreCompleted : String := "AllJobsAreCompleted"

/-- v1alpha1.ConditionJobFailed. -/
def conditionJobFailed : String := "JobFailed"

/-- v1alpha1.ConditionJobUnexpectedTermination. -/
def conditionJobUnexpectedTermination : String := "JobUnexpectedTermination"

/-- v1alpha1.WaitSpec: logical and time dependencies of an action.
`after` is a duration (`metav1.Duration` pointer), modelled as `Option Int`. -/
structure WaitSpec where
  success : List String
  running : List String
  after : Option Int
deriving DecidableEq, Repr

/-- v1alpha1.ConditionalExpr: a state expression and a metrics expression. -/
structure ConditionalExpr where
  state : String
  metrics : String
deriving DecidableEq, Repr

/-- ConditionalExpr.HasStateExpr. -/
def ConditionalExpr.hasStateExpr (e : ConditionalExpr) : Bool :=
  e.state != ""

/-- ConditionalExpr.HasMetricsExpr. -/
def ConditionalExpr.hasMetricsExpr (e : ConditionalExpr) : Bool :=
  e.metrics != ""

/-- ConditionalExpr.IsZero. -/
def ConditionalExpr.isZero (e : ConditionalExpr) : Bool :=
  e.state == "" && e.metrics == ""

/-- v1alpha1.DeleteSpec: the jobs a Delete action tears down. -/
structure DeleteSpec where
  jobs : List String
deriving DecidableEq, Repr

/-- v1alpha1.EmbedActions: which type-specific spec is embedded in an action.
The payloads of the non-Delete specs are never inspected by the validators,
so presence (`Option Unit`) models them. -/
structure EmbedActions where
  service : Option Unit
  cluster : Option Unit
  chaos : Option Unit
  cascade : Option Unit
  call : Option Unit
  delete : Option DeleteSpec
deriving DecidableEq, Repr

/-- v1alpha1.Action: one scheduling unit of a plan.  `actionType` is a string
in the source.  `embedActions` is a pointer there (`Option` here). -/
structure Action where
  name : String
  actionType : String
  dependsOn : Option WaitSpec
  assert : ConditionalExpr
  embedActions : Option EmbedActions
deriving DecidableEq, Repr

/-- lifecycle.ClassifierReader: the probes and counters the embedded
controllers consult.  The view is abstract: any assignment of probes,
counts and name lists is a possible view. -/
structure ClassifierReader where
  isSuccessful : String → Bool
  isRunning : String → Bool
  numPendingJobs : Nat
  numRunningJobs : Nat
  numSuccessfulJobs : Nat
  numFailedJobs : Nat
  pendingList : List String
  runningList : List String
  successfulList : List String
  failedList : List String

/-- successOK closure of GetNextLogicalJob: every success dependency is
classified successful. -/
def successOK (gs : ClassifierReader) (deps : WaitSpec) : Bool :=
  deps.success.all gs.isSuccessful

/-- runningOK closure of GetNextLogicalJob: every running dependency is
classified running. -/
def runningOK (gs : ClassifierReader) (deps : WaitSpec) : Bool :=
  deps.running.all gs.isRunning

/-- timeOK closure of GetNextLogicalJob.  Returns whether the time constraint
has expired, together with the updated nextCycle accumulator.  In the source
the current instant is read with `metav1.Now()`; the single parameter `now`
models that clock reading. -/
def timeOK (timebase now : Int) (nextCycle : Option Int) (deps : WaitSpec) :
    Bool × Option Int :=
  match deps.after with
  | none => (true, nextCycle)
  | some dur =>
    let deadline := timebase + dur
    if deadline < now then
      (true, nextCycle)
    else
      match nextCycle with
      | none => (false, some deadline)
      | some nc => if deadline < nc then (false, some deadline) else (false, nextCycle)

/-- The action loop of GetNextLogicalJob.  `executed` is the key set of the
`executed` map (only membership of `action.Name` is read).  The short-circuit
`!successOK(deps) || !runningOK(deps) || !timeOK(deps)` means timeOK (and its
nextCycle side effect) only runs when the logical dependencies are met. -/
def getNextLogicalJobLoop (gs : ClassifierReader) (executed : List String)
    (timebase now : Int) :
    List Action → List Action → Option Int → List Action × Option Int
  | [], sched, nextCycle => (sched, nextCycle)
  | a :: rest, sched, nextCycle =>
    if executed.contains a.name then
      getNextLogicalJobLoop gs executed timebase now rest sched nextCycle
    else
      match a.dependsOn with
      | none => getNextLogicalJobLoop gs executed timebase now rest (sched ++ [a]) nextCycle
      | some deps =>
        if !(successOK gs deps) || !(runningOK gs deps) then
          getNextLogicalJobLoop gs executed timebase now rest sched nextCycle
        else
          match timeOK timebase now nextCycle deps with
          | (true, nc) => getNextLogicalJobLoop gs executed timebase now rest (sched ++ [a]) nc
          | (false, nc) => getNextLogicalJobLoop gs executed timebase now rest sched nc

/-- GetNextLogicalJob (controllers/scenario/scheduler.go): the logical
scheduler.  Returns the ready actions and the nearest pending deadline
(`nextCycle`, zero `time.Time` modelled as `none`). -/
def GetNextLogicalJob (timebase : Int) (all : List Action) (gs : ClassifierReader)
    (executed : List String) (now : Int) : List Action × Option Int :=
  getNextLogicalJobLoop gs executed timebase now all [] none

/-- Ready predicate written from the spec sentence of claim C1, with the time
clause exactly as the claim words it: `timebase + after <= now`. -/
def readyLe (timebase now : Int) (gs : ClassifierReader) (executed : List String)
    (a : Action) : Bool :=
  !(executed.contains a.name) &&
  (match a.dependsOn with
   | none => true
   | some deps =>
     successOK gs deps && runningOK gs deps &&
     (match deps.after with
      | none => true
      | some dur => decide (timebase + dur ≤ now)))

/-- Ready predicate with the time clause as the code implements it:
`timebase + after < now` strictly (`deadline.Before(cur.Time)`). -/
def readyStrict (timebase now : Int) (gs : ClassifierReader) (executed : List String)
    (a : Action) : Bool :=
  !(executed.contains a.name) &&
  (match a.dependsOn with
   | none => true
   | some deps =>
     successOK gs deps && runningOK gs deps &&
     (match deps.after with
      | none => true
      | some dur => decide (timebase + dur < now)))

/-- The boolean component of timeOK is the strict-deadline test. -/
theorem timeOK_fst (timebase now : Int) (nextCycle : Option Int) (deps : WaitSpec) :
    (timeOK timebase now nextCycle deps).1 =
      (match deps.after with
       | none => true
       | some dur => decide (timebase + dur < now)) := by
  unfold timeOK
  cases deps.after with
  | none => rfl
  | some dur =>
    by_cases h : timebase + dur < now
    · simp [h]
    · simp only [h, if_neg h, decide_eq_true_eq]
      cases nextCycle with
      | none => simp [h]
      | some nc =>
        by_cases h2 : timebase + dur < nc <;> simp [h, h2]

/-- The scheduler loop returns the accumulator followed by the filter of the
remaining actions under the strict ready predicate. -/
theorem getNextLogicalJobLoop_eq_filter (gs : ClassifierReader) (executed : List String)
    (timebase now : Int) (rest : List Action) :
    ∀ (sched : List Action) (nextCycle : Option Int),
      (getNextLogicalJobLoop gs executed timebase now rest sched nextCycle).1 =
        sched ++ rest.filter (readyStrict timebase now gs executed) := by
  induction rest with
  | nil => intro sched nextCycle; simp [getNextLogicalJobLoop]
  | cons a rest ih =>
    intro sched nextCycle
    rw [List.filter_cons]
    cases hexec : executed.contains a.name with
    | true =>
      have hmem : a.name ∈ executed := by simpa using hexec
      have hval : readyStrict timebase now gs executed a = false := by
        simp [readyStrict, hmem]
      rw [hval]
      simp only [getNextLogicalJobLoop, hexec, if_true, Bool.false_eq_true, if_false]
      exact ih sched nextCycle
    | false =>
      have hmem : a.name ∉ executed := by simpa using hexec
      cases hdep : a.dependsOn with
      | none =>
        have hval : readyStrict timebase now gs executed a = true := by
          simp [readyStrict, hmem, hdep]
        rw [hval]
        simp only [getNextLogicalJobLoop, hexec, Bool.false_eq_true, if_false, hdep]
        rw [ih (sched ++ [a]) nextCycle]
        simp
      | some deps =>
        cases hs : successOK gs deps with
        | false =>
          have hval : readyStrict timebase now gs executed a = false := by
            simp [readyStrict, hmem, hdep, hs]
          rw [hval]
          simp only [getNextLogicalJobLoop, hexec, Bool.false_eq_true, if_false, hdep,
            hs, Bool.not_false, Bool.true_or, if_true]
          exact ih sched nextCycle
        | true =>
          cases hr : runningOK gs deps with
          | false =>
            have hval : readyStrict timebase now gs executed a = false := by
              simp [readyStrict, hmem, hdep, hs, hr]
            rw [hval]
            simp only [getNextLogicalJobLoop, hexec, Bool.false_eq_true, if_false, hdep,
              hs, hr, Bool.not_false, Bool.not_true, Bool.false_or, if_true]
            exact ih sched nextCycle
          | true =>
            cases hafter : deps.after with
            | none =>
              have hval : readyStrict timebase now gs executed a = true := by
                simp [readyStrict, hmem, hdep, hs, hr, hafter]
              rw [hval]
              have htok : timeOK timebase now nextCycle deps = (true, nextCycle) := by
                simp [timeOK, hafter]
              simp only [getNextLogicalJobLoop, hexec, Bool.false_eq_true, if_false, hdep,
                hs, hr, Bool.not_true, Bool.or_self, if_false, htok]
              rw [ih (sched ++ [a]) nextCycle]
              simp
            | some dur =>
              by_cases ht : timebase + dur < now
              · have hval : readyStrict timebase now gs executed a = true := by
                  simp [readyStrict, hmem, hdep, hs, hr, hafter, ht]
                rw [hval]
                have htok : timeOK timebase now nextCycle deps = (true, nextCycle) := by
                  simp [timeOK, hafter, ht]
                simp only [getNextLogicalJobLoop, hexec, Bool.false_eq_true, if_false, hdep,
                  hs, hr, Bool.not_true, Bool.or_self, if_false, htok]
                rw [ih (sched ++ [a]) nextCycle]
                simp
              · have hval : readyStrict timebase now gs executed a = false := by
                  simp [readyStrict, hmem, hdep, hs, hr, hafter, ht]
                rw [hval]
                have hfst := timeOK_fst timebase now nextCycle deps
                rw [hafter] at hfst
                simp only [decide_eq_true_eq] at hfst
                cases htok : timeOK timebase now nextCycle deps with
                | mk ok nc =>
                  have hok : ok = false := by
                    rw [htok] at hfst
                    simpa [ht] using hfst
                  subst hok
                  simp only [getNextLogicalJobLoop, hexec, Bool.false_eq_true, if_false, hdep,
                    hs, hr, Bool.not_true, Bool.or_self, if_false, htok]
                  exact ih sched nc

/-- C1 (amended): the ready list of the logical scheduler is exactly the
declaration-ordered filter of the action list under the predicate: not
executed, all success deps successful, all running deps running, and either
no `after` or `timebase + after < now` strictly.  Memberhip characterisation
and order preservation both follow. -/
theorem getNextLogicalJob_is_filter (timebase : Int) (all : List Action)
    (gs : ClassifierReader) (executed : List String) (now : Int) :
    (GetNextLogicalJob timebase all gs executed now).1 =
      all.filter (readyStrict timebase now gs executed) := by
  unfold GetNextLogicalJob
  simpa using getNextLogicalJobLoop_eq_filter gs executed timebase now all [] none

/-- An all-true view: every probe answers positively, no counted jobs. -/
def exView : ClassifierReader where
  isSuccessful := fun _ => true
  isRunning := fun _ => true
  numPendingJobs := 0
  numRunningJobs := 0
  numSuccessfulJobs := 0
  numFailedJobs := 0
  pendingList := []
  runningList := []
  successfulList := []
  failedList := []

/-- An action whose only dependency is `after` = 5 time units. -/
def exActionA : Action where
  name := "a"
  actionType := "Service"
  dependsOn := some { success := [], running := [], after := some 5 }
  assert := { state := "", metrics := "" }
  embedActions := some { service := some (), cluster := none, chaos := none,
                         cascade := none, call := none, delete := none }

/-- An action whose only dependency is `after` = 10 time units. -/
def exActionB : Action where
  name := "b"
  actionType := "Service"
  dependsOn := some { success := [], running := [], after := some 10 }
  assert := { state := "", metrics := "" }
  embedActions := some { service := some (), cluster := none, chaos := none,
                         cascade := none, call := none, delete := none }

/-- C1 (counterexample): at `timebase + after = now` exactly (timebase 0,
after 5, now 5) the claim predicate (`timebase + after <= now`) marks the
action ready, but GetNextLogicalJob excludes it: the code requires the
deadline to lie strictly before now (`deadline.Before(cur.Time)`).  So the
claimed membership equivalence is false at this input. -/
theorem getNextLogicalJob_le_counterexample :
    (GetNextLogicalJob 0 [exActionA] exView [] 5).1 = [] ∧
      readyLe 0 5 exView [] exActionA = true := by
  exact ⟨rfl, rfl⟩

/-- C8 (counterexample): the result of GetNextLogicalJob does not depend only
on (action list, executed set, view): with those fixed, two invocations whose
`metav1.Now()` readings differ (now = 5 versus now = 20, timebase 0, action
with after = 10) return different ready lists and wake times. -/
theorem getNextLogicalJob_clock_counterexample :
    GetNextLogicalJob 0 [exActionB] exView [] 5 ≠
      GetNextLogicalJob 0 [exActionB] exView [] 20 := by
  decide

/-- C8 (amended): determinism given the clock reading.  The result of
GetNextLogicalJob depends on the Classifier view only through the
IsSuccessful/IsRunning probes: two views agreeing on these probes (with the
same timebase, action list, executed set and now) yield identical ready lists
and identical nextWake times. -/
theorem getNextLogicalJob_deterministic (timebase : Int) (all : List Action)
    (executed : List String) (now : Int) (gs₁ gs₂ : ClassifierReader)
    (hS : ∀ n, gs₁.isSuccessful n = gs₂.isSuccessful n)
    (hR : ∀ n, gs₁.isRunning n = gs₂.isRunning n) :
    GetNextLogicalJob timebase all gs₁ executed now =
      GetNextLogicalJob timebase all gs₂ executed now := by
  have hS' : gs₁.isSuccessful = gs₂.isSuccessful := funext hS
  have hR' : gs₁.isRunning = gs₂.isRunning := funext hR
  unfold GetNextLogicalJob
  suffices h : ∀ (rest : List Action) (sched : List Action) (nc : Option Int),
      getNextLogicalJobLoop gs₁ executed timebase now rest sched nc =
        getNextLogicalJobLoop gs₂ executed timebase now rest sched nc by
    exact h all [] none
  intro rest
  induction rest with
  | nil => intro sched nc; rfl
  | cons a rest ih =>
    intro sched nc
    simp only [getNextLogicalJobLoop, successOK, runningOK, hS', hR']
    cases executed.contains a.name
    · cases a.dependsOn with
      | none => simp [ih]
      | some deps =>
        cases (!deps.success.all gs₂.isSuccessful || !deps.running.all gs₂.isRunning)
        · cases timeOK timebase now nc deps with
          | mk ok nc2 => cases ok <;> simp [ih]
        · simp [ih]
    · simp [ih]

/-- Two structurally different views that agree on the probes (they differ in
the pending-jobs counter). -/
def exViewCount1 : ClassifierReader where
  isSuccessful := fun _ => true
  isRunning := fun _ => true
  numPendingJobs := 1
  numRunningJobs := 0
  numSuccessfulJobs := 0
  numFailedJobs := 0
  pendingList := []
  runningList := []
  successfulList := []
  failedList := []

/-- Counterpart of `exViewCount1` with a different pending-jobs counter. -/
def exViewCount2 : ClassifierReader where
  isSuccessful := fun _ => true
  isRunning := fun _ => true
  numPendingJobs := 2
  numRunningJobs := 0
  numSuccessfulJobs := 0
  numFailedJobs := 0
  pendingList := []
  runningList := []
  successfulList := []
  failedList := []

/-- Witness for the amended determinism theorem at a concrete input. -/
theorem getNextLogicalJob_deterministic_witness :
    GetNextLogicalJob 0 [exActionA] exViewCount1 [] 7 =
      GetNextLogicalJob 0 [exActionA] exViewCount2 [] 7 :=
  getNextLogicalJob_deterministic 0 [exActionA] [] 7 exViewCount1 exViewCount2
    (fun _ => rfl) (fun _ => rfl)

/-- v1alpha1.TolerateSpec: the number of failed jobs a parent tolerates. -/
structure TolerateSpec where
  failedJobs : Nat
deriving DecidableEq, Repr

/-- Spec of the Stop CR as read by stop/lifecycle.go: the services list, the
optional Until conditions and the Suspend flag. -/
structure StopSpec where
  services : List String
  untilSpec : Option ConditionalExpr
  suspend : Option Bool
deriving DecidableEq, Repr

/-- Status of the Stop CR: embedded Lifecycle, conditions, ScheduledJobs. -/
structure StopStatus where
  lifecycle : Lifecycle
  conditions : List Condition
  scheduledJobs : Int
deriving DecidableEq, Repr

/-- The Stop CR (name, spec, status). -/
structure Stop where
  name : String
  spec : StopSpec
  status : StopStatus
deriving DecidableEq, Repr

/-- Result of stop/lifecycle.go calculateLifecycle: the returned status plus
the final value of cr.Spec.Suspend (the event-fired branches set it). -/
structure StopResult where
  status : StopStatus
  suspend : Option Bool
deriving DecidableEq, Repr

/-- The fall-through tail of the Until branch of stop calculateLifecycle
(lines 112-145): the MaxInstancesReached bound, else SpawnUntilEvent. -/
def stopUntilFallthrough (cr : Stop) : Option StopResult :=
  if 0 < cr.spec.services.length ∧ (cr.spec.services.length : Int) < cr.status.scheduledJobs then
    let msg := "All [" ++ toString cr.spec.services.length ++ "] services are stopped for job ["
      ++ cr.name ++ "] before Until conditions are met. Abort the experiment as it too flaky to accept."
    some ⟨{ lifecycle := ⟨.failed, "MaxInstancesReached", msg⟩,
            conditions := setStatusCondition cr.status.conditions
              ⟨conditionJobFailed, "True", "MaxInstancesReached", msg⟩,
            scheduledJobs := cr.status.scheduledJobs }, cr.spec.suspend⟩
  else
    some ⟨{ lifecycle := ⟨.pending, "SpawnUntilEvent", "Assertion is not yet satisfied."⟩,
            conditions := cr.status.conditions,
            scheduledJobs := cr.status.scheduledJobs }, cr.spec.suspend⟩

/-- calculateLifecycle of controllers/stop/lifecycle.go.  The expression
engine is external, so its two calls are parameters: `firedAlert` is the
(info, fired) result of expressions.FiredAlert(cr), and `firedState` the
result of expressions.FiredState(until.State, gs) with its error channel.
The autotests slice with its first-match loop and the zero-condition check is
flattened into the equivalent if-chain; the final `panic` is `none`. -/
def stopCalculateLifecycle (cr : Stop) (gs : ClassifierReader)
    (firedAlert : String × Bool) (firedState : Except String (String × Bool)) :
    Option StopResult :=
  -- Step 1: skip CRs that are already completed, or uninitialized.
  if cr.status.lifecycle.phase = .uninitialized ∨ cr.status.lifecycle.phase = .success ∨
      cr.status.lifecycle.phase = .failed then
    some ⟨cr.status, cr.spec.suspend⟩
  else
    match cr.spec.untilSpec with
    | some u =>
      -- Step 3: check whether the Until conditions are met.
      if u.hasMetricsExpr && firedAlert.2 then
        some ⟨{ lifecycle := ⟨.running, "MetricsEventFired", firedAlert.1⟩,
                conditions := setStatusCondition cr.status.conditions
                  ⟨conditionAllJobsScheduled, "True", "MetricsEventFired", firedAlert.1⟩,
                scheduledJobs := cr.status.scheduledJobs }, some true⟩
      else if u.hasStateExpr then
        match firedState with
        | .error e =>
          some ⟨{ lifecycle := ⟨.failed, "StateQueryError", e⟩,
                  conditions := setStatusCondition cr.status.conditions
                    ⟨conditionJobFailed, "True", "StateQueryError", e⟩,
                  scheduledJobs := cr.status.scheduledJobs }, cr.spec.suspend⟩
        | .ok (info, fired) =>
          if fired then
            some ⟨{ lifecycle := ⟨.running, "StateEventFired", info⟩,
                    conditions := setStatusCondition cr.status.conditions
                      ⟨conditionAllJobsScheduled, "True", "StateEventFired", info⟩,
                    scheduledJobs := cr.status.scheduledJobs }, some true⟩
          else
            stopUntilFallthrough cr
      else
        stopUntilFallthrough cr
    | none =>
      -- Step 4: check that scheduling goes as expected (the autotests table).
      let queuedJobs : Int := cr.spec.services.length
      if (gs.numSuccessfulJobs : Int) = queuedJobs then
        some ⟨{ lifecycle := ⟨.success, "AllJobsCompleted",
                  "successful jobs: " ++ toString gs.successfulList⟩,
                conditions := setStatusCondition cr.status.conditions
                  ⟨conditionAllJobsCompleted, "True", "AllJobsCompleted",
                    "successful jobs: " ++ toString gs.successfulList⟩,
                scheduledJobs := cr.status.scheduledJobs }, cr.spec.suspend⟩
      else if cr.status.lifecycle.phase = .running ∧ 0 < gs.numFailedJobs then
        -- a failure within the expected toleration: keep the previous status
        some ⟨{ lifecycle := cr.status.lifecycle,
                conditions := cr.status.conditions,
                scheduledJobs := cr.status.scheduledJobs }, cr.spec.suspend⟩
      else if ((gs.numRunningJobs + gs.numSuccessfulJobs : Nat) : Int) = queuedJobs then
        some ⟨{ lifecycle := ⟨.running, "AllJobsRunning",
                  "running jobs: " ++ toString gs.runningList⟩,
                conditions := setStatusCondition cr.status.conditions
                  ⟨conditionAllJobsScheduled, "True", "AllJobsRunning",
                    "running jobs: " ++ toString gs.runningList⟩,
                scheduledJobs := cr.status.scheduledJobs }, cr.spec.suspend⟩
      else if cr.status.lifecycle.phase = .pending then
        some ⟨{ lifecycle := ⟨.pending, "JobIsPending", "at least one jobs has not yet created"⟩,
                conditions := cr.status.conditions,
                scheduledJobs := cr.status.scheduledJobs }, cr.spec.suspend⟩
      else
        none

/-- Spec of the Call CR as read by call/lifecycle.go (`Until` is a pointer:
`Option`; `Tolerate` likewise). -/
structure CallSpec where
  services : List String
  untilSpec : Option ConditionalExpr
  tolerate : Option TolerateSpec
  suspend : Option Bool
deriving DecidableEq, Repr

/-- Status of the Call CR. -/
structure CallStatus where
  lifecycle : Lifecycle
  conditions : List Condition
  scheduledJobs : Int
deriving DecidableEq, Repr

/-- The Call CR (name, spec, status). -/
structure Call where
  name : String
  spec : CallSpec
  status : CallStatus
deriving DecidableEq, Repr

/-- `cr.Spec.Until.IsZero()` for the pointer field: nil or the zero value. -/
def callUntilIsZero (u : Option ConditionalExpr) : Bool :=
  match u with
  | none => true
  | some e => e.isZero

/-- The tolerated number of failed jobs, defaulting to 0 when `Tolerate` is
absent. -/
def tolerateOf (tolerate : Option TolerateSpec) : Nat :=
  match tolerate with
  | none => 0
  | some t => t.failedJobs

/-- Modelled from the spec: `lifecycle.GroupedJobs` (pkg/lifecycle), the
grouped-job reducer of section 4.6.  Its definition is not among the provided
sources — only its caller call/lifecycle.go is — so the decision table of the
spec is transcribed literally, first match first: failed > tolerate;
successful == totalJobs; running+successful+failed == totalJobs with
failed <= tolerate; previous Running with 0 < failed <= tolerate; otherwise
Pending.  `none` means no update (the reducer never transitions out of
Success or Failed); each row carries the condition it sets, if any. -/
def GroupedJobs (totalJobs : Int) (gs : ClassifierReader) (prev : Lifecycle)
    (tolerate : Option TolerateSpec) : Option (Lifecycle × Option Condition) :=
  if prev.phase = .success ∨ prev.phase = .failed then
    none
  else
    let tol := tolerateOf tolerate
    if tol < gs.numFailedJobs then
      some (⟨.failed, "UnexpectedTermination", "failed jobs: " ++ toString gs.failedList⟩,
            some ⟨conditionJobUnexpectedTermination, "True", "UnexpectedTermination",
                  "failed jobs: " ++ toString gs.failedList⟩)
    else if (gs.numSuccessfulJobs : Int) = totalJobs then
      some (⟨.success, "AllJobsCompleted", "successful jobs: " ++ toString gs.successfulList⟩,
            some ⟨conditionAllJobsAreCompleted, "True", "AllJobsCompleted",
                  "successful jobs: " ++ toString gs.successfulList⟩)
    else if ((gs.numRunningJobs + gs.numSuccessfulJobs + gs.numFailedJobs : Nat) : Int) = totalJobs ∧
        gs.numFailedJobs ≤ tol then
      some (⟨.running, "AllJobsRunning", "running jobs: " ++ toString gs.runningList⟩,
            some ⟨conditionAllJobsAreScheduled, "True", "AllJobsRunning",
                  "running jobs: " ++ toString gs.runningList⟩)
    else if prev.phase = .running ∧ 0 < gs.numFailedJobs ∧ gs.numFailedJobs ≤ tol then
      some (⟨.running, "Tolerating", "failed jobs: " ++ toString gs.failedList⟩, none)
    else
      some (⟨.pending, "JobPending", "waiting for jobs"⟩, none)

/-- Apply the reducer result to a Call CR the way call/lifecycle.go does:
`lifecycle.GroupedJobs(totalJobs, r.view, &cr.Status.Lifecycle, cr.Spec.Tolerate)`
writes the new lifecycle (and condition) into the status and reports whether
an update happened. -/
def callApplyGroupedJobs (cr : Call) (gs : ClassifierReader) (totalJobs : Int) :
    Bool × Call :=
  match GroupedJobs totalJobs gs cr.status.lifecycle cr.spec.tolerate with
  | none => (false, cr)
  | some (lf, none) =>
    (true, { cr with status := { cr.status with lifecycle := lf } })
  | some (lf, some c) =>
    let st := { cr.status with lifecycle := lf, conditions := setStatusCondition cr.status.conditions c }
    (true, { cr with status := st })

/-- calculateLifecycle of controllers/call/lifecycle.go.  `untilEval` is the
(fired, info) result of evaluating the Until expression by the external
expression engine (`expressions.Condition{Expr: cr.Spec.Until}.IsTrue`). -/
def callCalculateLifecycle (cr : Call) (gs : ClassifierReader)
    (untilEval : Bool × String) : Bool × Call :=
  -- Step 1: skip CRs that are already completed, or uninitialized.
  if cr.status.lifecycle.phase = .uninitialized ∨ cr.status.lifecycle.phase = .success ∨
      cr.status.lifecycle.phase = .failed then
    (false, cr)
  else if callUntilIsZero cr.spec.untilSpec = false then
    -- Step 3: check whether the Until conditions are met.
    if isStatusConditionTrue cr.status.conditions conditionAllJobsAreScheduled then
      callApplyGroupedJobs cr gs (cr.status.scheduledJobs + 1)
    else if untilEval.1 then
      let conds := setStatusCondition cr.status.conditions
        ⟨conditionAllJobsAreScheduled, "True", "UntilCondition", untilEval.2⟩
      let st := { cr.status with lifecycle := Lifecycle.mk .running "UntilCondition" untilEval.2, conditions := conds }
      (true, { cr with status := st, spec := { cr.spec with suspend := some true } })
    else
      let maxJobs : Int := cr.spec.services.length
      if 0 < maxJobs ∧ maxJobs < cr.status.scheduledJobs then
        let msg := "Resource [" ++ cr.name ++ "] has reached Max instances ["
          ++ toString maxJobs ++ "] before Until conditions are met."
        let conds := setStatusCondition cr.status.conditions
          ⟨conditionJobUnexpectedTermination, "True", "MaxInstancesReached", msg⟩
        let st := { cr.status with lifecycle := Lifecycle.mk .failed "MaxInstancesReached" msg, conditions := conds }
        (true, { cr with status := st })
      else
        let st := { cr.status with lifecycle := Lifecycle.mk .pending "SpawnUntilEvent" "Assertion is not yet satisfied." }
        (true, { cr with status := st })
  else
    -- Step 4: no Until — reduce over the expected len(cr.Spec.Services) jobs.
    callApplyGroupedJobs cr gs (cr.spec.services.length : Int)

/-- find? over a replace-map: if some condition matches the type, the mapped
list's first match is the replacement. -/
theorem find_map_replace (conds : List Condition) (c : Condition)
    (h : conds.any (fun x => x.condType == c.condType) = true) :
    (conds.map (fun x => if x.condType == c.condType then c else x)).find?
      (fun x => x.condType == c.condType) = some c := by
  induction conds with
  | nil => simp at h
  | cons x xs ih =>
    cases hx : x.condType == c.condType with
    | true =>
      simp only [List.map_cons, hx, if_true, List.find?_cons, beq_self_eq_true]
    | false =>
      simp only [List.any_cons, hx, Bool.false_or] at h
      simp only [List.map_cons, hx, Bool.false_eq_true, if_false, List.find?_cons]
      exact ih h

/-- find? over an append of a fresh condition: if nothing matched before, the
appended condition is found. -/
theorem find_append_new (conds : List Condition) (c : Condition)
    (h : conds.any (fun x => x.condType == c.condType) = false) :
    (conds ++ [c]).find? (fun x => x.condType == c.condType) = some c := by
  induction conds with
  | nil => simp [List.find?_cons]
  | cons x xs ih =>
    simp only [List.any_cons, Bool.or_eq_false_iff] at h
    simp only [List.cons_append, List.find?_cons, h.1]
    exact ih h.2

/-- After setting a condition, looking up its type sees its status. -/
theorem isStatusConditionTrue_set (conds : List Condition) (c : Condition) :
    isStatusConditionTrue (setStatusCondition conds c) c.condType =
      (c.status == "True") := by
  unfold setStatusCondition isStatusConditionTrue
  by_cases h : conds.any (fun x => x.condType == c.condType)
  · rw [if_pos h, find_map_replace conds c h]
  · rw [if_neg h, find_append_new conds c (by simpa using h)]

/-- C4: Success and Failed are absorbing: both grouped-job lifecycle
computations (stop and call) return their input unchanged when the current
phase is terminal — no phase, reason or condition is modified and the suspend
flag is untouched. -/
theorem terminal_phase_absorbing :
    (∀ (cr : Stop) (gs : ClassifierReader) (fa : String × Bool)
        (fs : Except String (String × Bool)),
        cr.status.lifecycle.phase = Phase.success ∨ cr.status.lifecycle.phase = Phase.failed →
        stopCalculateLifecycle cr gs fa fs = some ⟨cr.status, cr.spec.suspend⟩) ∧
    (∀ (cr : Call) (gs : ClassifierReader) (ue : Bool × String),
        cr.status.lifecycle.phase = Phase.success ∨ cr.status.lifecycle.phase = Phase.failed →
        callCalculateLifecycle cr gs ue = (false, cr)) := by
  constructor
  · intro cr gs fa fs h
    unfold stopCalculateLifecycle
    rcases h with h | h <;> simp [h]
  · intro cr gs ue h
    unfold callCalculateLifecycle
    rcases h with h | h <;> simp [h]

/-- A Stop CR already in the Success phase. -/
def exStopDone : Stop :=
  ⟨"stop1", ⟨["a"], none, none⟩, ⟨⟨.success, "AllJobsCompleted", ""⟩, [], 0⟩⟩

/-- A Call CR already in the Failed phase. -/
def exCallDone : Call :=
  ⟨"call1", ⟨["a"], none, none, none⟩, ⟨⟨.failed, "MaxInstancesReached", ""⟩, [], 0⟩⟩

/-- Witness for terminal absorption at concrete terminal CRs. -/
theorem terminal_phase_absorbing_witness :
    stopCalculateLifecycle exStopDone exView ("", false) (Except.ok ("", false)) =
        some ⟨exStopDone.status, exStopDone.spec.suspend⟩ ∧
      callCalculateLifecycle exCallDone exView (false, "") = (false, exCallDone) :=
  ⟨terminal_phase_absorbing.1 exStopDone exView ("", false) (Except.ok ("", false)) (Or.inl rfl),
   terminal_phase_absorbing.2 exCallDone exView (false, "") (Or.inr rfl)⟩

/-- C2: first row of the reducer decision table.  Whenever the failed count
exceeds the tolerated failures (tolerance defaulting to 0 when absent) and the
previous phase is not terminal, the reducer returns Failed with reason
UnexpectedTermination and the JobUnexpectedTermination=True condition — no
later row is consulted.  Setting the returned condition makes
JobUnexpectedTermination read as True on any conditions list. -/
theorem groupedJobs_tolerance_row (totalJobs : Int) (gs : ClassifierReader)
    (prev : Lifecycle) (tolerate : Option TolerateSpec)
    (hterm : ¬(prev.phase = Phase.success ∨ prev.phase = Phase.failed))
    (hfail : tolerateOf tolerate < gs.numFailedJobs) :
    GroupedJobs totalJobs gs prev tolerate =
        some (⟨.failed, "UnexpectedTermination", "failed jobs: " ++ toString gs.failedList⟩,
              some ⟨conditionJobUnexpectedTermination, "True", "UnexpectedTermination",
                    "failed jobs: " ++ toString gs.failedList⟩) ∧
      ∀ conds : List Condition,
        isStatusConditionTrue
          (setStatusCondition conds
            ⟨conditionJobUnexpectedTermination, "True", "UnexpectedTermination",
             "failed jobs: " ++ toString gs.failedList⟩)
          conditionJobUnexpectedTermination = true := by
  constructor
  · unfold GroupedJobs
    simp [hterm, hfail]
  · intro conds
    exact isStatusConditionTrue_set conds
      ⟨conditionJobUnexpectedTermination, "True", "UnexpectedTermination",
       "failed jobs: " ++ toString gs.failedList⟩

/-- A view with one failed job. -/
def exViewFailed : ClassifierReader where
  isSuccessful := fun _ => false
  isRunning := fun _ => false
  numPendingJobs := 0
  numRunningJobs := 0
  numSuccessfulJobs := 0
  numFailedJobs := 1
  pendingList := []
  runningList := []
  successfulList := []
  failedList := ["j1"]

/-- Witness for the tolerance row at a concrete input (1 failed job, no
tolerance, previous phase Running, 5 expected jobs). -/
theorem groupedJobs_tolerance_row_witness :
    GroupedJobs 5 exViewFailed ⟨.running, "AllJobsRunning", ""⟩ none =
        some (⟨.failed, "UnexpectedTermination", "failed jobs: " ++ toString exViewFailed.failedList⟩,
              some ⟨conditionJobUnexpectedTermination, "True", "UnexpectedTermination",
                    "failed jobs: " ++ toString exViewFailed.failedList⟩) ∧
      ∀ conds : List Condition,
        isStatusConditionTrue
          (setStatusCondition conds
            ⟨conditionJobUnexpectedTermination, "True", "UnexpectedTermination",
             "failed jobs: " ++ toString exViewFailed.failedList⟩)
          conditionJobUnexpectedTermination = true :=
  groupedJobs_tolerance_row 5 exViewFailed ⟨.running, "AllJobsRunning", ""⟩ none
    (by decide) (by decide)

/-- C3: the otherwise row.  When the previous phase is not terminal and none
of the four earlier decision-table rows matches, the reducer returns Pending
with reason JobPending and sets no condition.  The model is a total function,
so no combination of counts and previous phase is unhandled. -/
theorem groupedJobs_otherwise_row (totalJobs : Int) (gs : ClassifierReader)
    (prev : Lifecycle) (tolerate : Option TolerateSpec)
    (hterm : ¬(prev.phase = Phase.success ∨ prev.phase = Phase.failed))
    (h1 : ¬(tolerateOf tolerate < gs.numFailedJobs))
    (h2 : ¬((gs.numSuccessfulJobs : Int) = totalJobs))
    (h3 : ¬(((gs.numRunningJobs + gs.numSuccessfulJobs + gs.numFailedJobs : Nat) : Int) = totalJobs ∧
            gs.numFailedJobs ≤ tolerateOf tolerate))
    (h4 : ¬(prev.phase = Phase.running ∧ 0 < gs.numFailedJobs ∧
            gs.numFailedJobs ≤ tolerateOf tolerate)) :
    GroupedJobs totalJobs gs prev tolerate =
      some (⟨.pending, "JobPending", "waiting for jobs"⟩, none) := by
  have h3' : ¬((gs.numRunningJobs : Int) + gs.numSuccessfulJobs + gs.numFailedJobs = totalJobs ∧
      gs.numFailedJobs ≤ tolerateOf tolerate) := by
    push_cast at h3
    exact h3
  unfold GroupedJobs
  simp [hterm, h1, h2, h3', h4]

/-- Witness for the otherwise row: empty view, 3 expected jobs, previous
phase Pending — no earlier row matches. -/
theorem groupedJobs_otherwise_row_witness :
    GroupedJobs 3 exView ⟨.pending, "", ""⟩ none =
      some (⟨.pending, "JobPending", "waiting for jobs"⟩, none) :=
  groupedJobs_otherwise_row 3 exView ⟨.pending, "", ""⟩ none
    (by decide) (by decide) (by decide) (by decide) (by decide)

/-- C7 (amended): with Until present and not yet fired, the Failed /
MaxInstancesReached transition happens only when the ScheduledJobs counter
STRICTLY exceeds len(services) (`cr.Status.ScheduledJobs > maxJobs`), and it
then sets the JobUnexpectedTermination condition to True. -/
theorem call_maxInstances_strict_excess (cr : Call) (gs : ClassifierReader)
    (info : String)
    (hphase : ¬(cr.status.lifecycle.phase = Phase.uninitialized ∨
                cr.status.lifecycle.phase = Phase.success ∨
                cr.status.lifecycle.phase = Phase.failed))
    (huntil : callUntilIsZero cr.spec.untilSpec = false)
    (hcond : isStatusConditionTrue cr.status.conditions conditionAllJobsAreScheduled = false)
    (hmax : 0 < (cr.spec.services.length : Int))
    (hexcess : (cr.spec.services.length : Int) < cr.status.scheduledJobs) :
    ∃ st : CallStatus,
      callCalculateLifecycle cr gs (false, info) = (true, { cr with status := st }) ∧
      st.lifecycle.phase = Phase.failed ∧
      st.lifecycle.reason = "MaxInstancesReached" ∧
      isStatusConditionTrue st.conditions conditionJobUnexpectedTermination = true := by
  refine ⟨{ cr.status with
      lifecycle := Lifecycle.mk .failed "MaxInstancesReached"
        ("Resource [" ++ cr.name ++ "] has reached Max instances ["
          ++ toString (cr.spec.services.length : Int) ++ "] before Until conditions are met."),
      conditions := setStatusCondition cr.status.conditions
        ⟨conditionJobUnexpectedTermination, "True", "MaxInstancesReached",
          "Resource [" ++ cr.name ++ "] has reached Max instances ["
          ++ toString (cr.spec.services.length : Int) ++ "] before Until conditions are met."⟩ },
    ?_, rfl, rfl, ?_⟩
  · unfold callCalculateLifecycle
    rw [if_neg hphase, if_pos huntil]
    simp only [hcond, Bool.false_eq_true, if_false]
    simp [hmax, hexcess]
  · exact isStatusConditionTrue_set cr.status.conditions _

/-- A Call CR with Until pending, services [a,b,c] and exactly 3 scheduled
jobs (the boundary the claim speaks about). -/
def exCallBoundary : Call :=
  ⟨"call-until", ⟨["a", "b", "c"], some ⟨"expr", ""⟩, none, none⟩,
   ⟨⟨.pending, "SpawnUntilEvent", ""⟩, [], 3⟩⟩

/-- The same CR after a fourth job was scheduled. -/
def exCallExceeded : Call :=
  ⟨"call-until", ⟨["a", "b", "c"], some ⟨"expr", ""⟩, none, none⟩,
   ⟨⟨.pending, "SpawnUntilEvent", ""⟩, [], 4⟩⟩

/-- C7 (counterexample): with services=[a,b,c] and ScheduledJobs = 3 —
the point at which the claim says the action must go Failed with
MaxInstancesReached — the code instead stays Pending with reason
SpawnUntilEvent, because its guard is the strict `ScheduledJobs > 3`. -/
theorem call_maxInstances_counterexample :
    (callCalculateLifecycle exCallBoundary exView (false, "")).2.status.lifecycle.phase =
        Phase.pending ∧
      (callCalculateLifecycle exCallBoundary exView (false, "")).2.status.lifecycle.reason =
        "SpawnUntilEvent" :=
  ⟨rfl, rfl⟩

/-- Witness for the amended MaxInstancesReached theorem at ScheduledJobs = 4. -/
theorem call_maxInstances_strict_excess_witness :
    ∃ st : CallStatus,
      callCalculateLifecycle exCallExceeded exView (false, "") =
          (true, { exCallExceeded with status := st }) ∧
      st.lifecycle.phase = Phase.failed ∧
      st.lifecycle.reason = "MaxInstancesReached" ∧
      isStatusConditionTrue st.conditions conditionJobUnexpectedTermination = true :=
  call_maxInstances_strict_excess exCallExceeded exView ""
    (by decide) (by decide) (by decide) (by decide) (by decide)

/-- The error text of getNextScheduleTime when more than 100 starts were
missed. -/
def tooManyStartsMsg : String :=
  "too many missed start times. Set or decrease .spec.startingDeadlineSeconds or check clock skew"

/-- The missed-run loop of getNextScheduleTime:
`for t := sched.Next(earliestTime); !t.After(cur); t = sched.Next(t)` with the
body `lastMissed = t; starts++; if starts > 100 return error`.  `next` is the
parsed cron schedule's Next function.  The result carries the final value of
the `starts` counter alongside lastMissed. -/
def missedStartsLoop (next : Int → Int) (cur t lastMissed : Int) (starts : Nat) :
    Except String (Int × Nat) :=
  if cur < t then
    Except.ok (lastMissed, starts)
  else if 100 < starts + 1 then
    Except.error tooManyStartsMsg
  else
    missedStartsLoop next cur (next t) t (starts + 1)
termination_by 101 - starts
decreasing_by omega

/-- The earliestTime computation of getNextScheduleTime: last schedule time
(or the creation time when none), raised to `cur - startingDeadlineSeconds`
when a deadline is set. -/
def earliestStart (creationTime : Int) (lastScheduleTime : Option Int)
    (startingDeadlineSeconds : Option Int) (cur : Int) : Int :=
  let e0 := match lastScheduleTime with
    | none => creationTime
    | some t => t
  match startingDeadlineSeconds with
  | none => e0
  | some d => if e0 < cur - d then cur - d else e0

/-- getNextScheduleTime (time scheduler): returns (lastMissed, next, err).
The zero `time.Time` is modelled as the instant 0.  The cron-parsing branch
and the nil-scheduler branch happen before this computation and are
orthogonal to the loop bound. -/
def getNextScheduleTime (next : Int → Int) (creationTime : Int)
    (lastScheduleTime startingDeadlineSeconds : Option Int) (cur : Int) :
    Int × Int × Option String :=
  let earliestTime := earliestStart creationTime lastScheduleTime startingDeadlineSeconds cur
  if cur < earliestTime then
    (0, next cur, none)
  else
    match missedStartsLoop next cur (next earliestTime) 0 0 with
    | Except.error e => (0, 0, some e)
    | Except.ok (lastMissed, _) => (lastMissed, next cur, none)

/-- The loop, when it terminates normally, has run its body at most 100
times: the returned starts counter never exceeds 100. -/
theorem missedStartsLoop_ok_bound (next : Int → Int) (cur : Int) :
    ∀ (fuel starts : Nat), 101 - starts = fuel → starts ≤ 100 →
      ∀ (t lm m : Int) (s : Nat),
        missedStartsLoop next cur t lm starts = Except.ok (m, s) → s ≤ 100 := by
  intro fuel
  induction fuel with
  | zero => intro starts hf hle; omega
  | succ n ih =>
    intro starts hf hle t lm m s heq
    rw [missedStartsLoop] at heq
    by_cases h1 : cur < t
    · rw [if_pos h1] at heq
      simp only [Except.ok.injEq, Prod.mk.injEq] at heq
      omega
    · rw [if_neg h1] at heq
      by_cases h2 : 100 < starts + 1
      · rw [if_pos h2] at heq
        simp at heq
      · rw [if_neg h2] at heq
        exact ih (starts + 1) (by omega) (by omega) (next t) t m s heq

/-- The loop can only fail with the too-many-missed-starts message. -/
theorem missedStartsLoop_error_msg (next : Int → Int) (cur : Int) :
    ∀ (fuel starts : Nat), 101 - starts = fuel →
      ∀ (t lm : Int) (e : String),
        missedStartsLoop next cur t lm starts = Except.error e → e = tooManyStartsMsg := by
  intro fuel
  induction fuel with
  | zero =>
    intro starts hf t lm e heq
    rw [missedStartsLoop] at heq
    by_cases h1 : cur < t
    · rw [if_pos h1] at heq; simp at heq
    · rw [if_neg h1] at heq
      have h2 : 100 < starts + 1 := by omega
      rw [if_pos h2] at heq
      simp only [Except.error.injEq] at heq
      exact heq.symm
  | succ n ih =>
    intro starts hf t lm e heq
    rw [missedStartsLoop] at heq
    by_cases h1 : cur < t
    · rw [if_pos h1] at heq; simp at heq
    · rw [if_neg h1] at heq
      by_cases h2 : 100 < starts + 1
      · rw [if_pos h2] at heq
        simp only [Except.error.injEq] at heq
        exact heq.symm
      · rw [if_neg h2] at heq
        exact ih (starts + 1) (by omega) (next t) t e heq

/-- Error characterisation of the loop: it aborts exactly when every one of
the next `101 - starts` candidate start times lies at or before now. -/
theorem missedStartsLoop_error_iff (next : Int → Int) (cur : Int) :
    ∀ (fuel starts : Nat), 101 - starts = fuel → starts ≤ 100 →
      ∀ (t lm : Int),
        (missedStartsLoop next cur t lm starts = Except.error tooManyStartsMsg ↔
          ∀ i : Nat, i ≤ 100 - starts → next^[i] t ≤ cur) := by
  intro fuel
  induction fuel with
  | zero => intro starts hf hle; omega
  | succ n ih =>
    intro starts hf hle t lm
    rw [missedStartsLoop]
    by_cases h1 : cur < t
    · rw [if_pos h1]
      constructor
      · intro heq; simp at heq
      · intro hall
        have h0 := hall 0 (by omega)
        simp only [Function.iterate_zero, id_eq] at h0
        omega
    · rw [if_neg h1]
      by_cases h2 : 100 < starts + 1
      · rw [if_pos h2]
        constructor
        · intro _ i hi
          have : i = 0 := by omega
          subst this
          simpa using not_lt.mp h1
        · intro _; rfl
      · rw [if_neg h2]
        rw [ih (starts + 1) (by omega) (by omega) (next t) t]
        constructor
        · intro hall i hi
          match i with
          | 0 => simpa using not_lt.mp h1
          | Nat.succ j =>
            rw [Function.iterate_succ_apply]
            exact hall j (by omega)
        · intro hall i hi
          have := hall (i + 1) (by omega)
          rwa [Function.iterate_succ_apply] at this

/-- C5: the cron bound of the time scheduler.  (a) whenever
getNextScheduleTime reports an error, both returned times are the zero
instant and the error is the too-many-missed-starts message; (b) the error
occurs exactly when the earliest start is not in the future and each of the
first 101 candidate start times after it lies at or before now (that is,
the number of missed start times exceeds 100); (c) on a normal return the
loop body has run at most 100 times. -/
theorem getNextScheduleTime_cron_bound (next : Int → Int) (creationTime : Int)
    (lastScheduleTime startingDeadlineSeconds : Option Int) (cur : Int) :
    ((getNextScheduleTime next creationTime lastScheduleTime startingDeadlineSeconds cur).2.2 ≠
        none →
      getNextScheduleTime next creationTime lastScheduleTime startingDeadlineSeconds cur =
        (0, 0, some tooManyStartsMsg)) ∧
    ((getNextScheduleTime next creationTime lastScheduleTime startingDeadlineSeconds cur).2.2 =
        some tooManyStartsMsg ↔
      earliestStart creationTime lastScheduleTime startingDeadlineSeconds cur ≤ cur ∧
        ∀ i ∈ Finset.Icc 1 101,
          next^[i] (earliestStart creationTime lastScheduleTime startingDeadlineSeconds cur) ≤
            cur) ∧
    (∀ (m : Int) (s : Nat),
      missedStartsLoop next cur
          (next (earliestStart creationTime lastScheduleTime startingDeadlineSeconds cur)) 0 0 =
        Except.ok (m, s) → s ≤ 100) := by
  have hshift : ∀ e : Int,
      (∀ i : Nat, i ≤ 100 - 0 → next^[i] (next e) ≤ cur) ↔
        (∀ i ∈ Finset.Icc 1 101, next^[i] e ≤ cur) := by
    intro e
    constructor
    · intro h i hi
      rw [Finset.mem_Icc] at hi
      have hrep : i = (i - 1) + 1 := by omega
      rw [hrep, Function.iterate_succ_apply]
      exact h (i - 1) (by omega)
    · intro h i hi
      have := h (i + 1) (by rw [Finset.mem_Icc]; omega)
      rwa [Function.iterate_succ_apply] at this
  unfold getNextScheduleTime
  by_cases he : cur < earliestStart creationTime lastScheduleTime startingDeadlineSeconds cur
  · rw [if_pos he]
    refine ⟨fun h => absurd rfl h, ?_, ?_⟩
    · constructor
      · intro h; simp at h
      · intro h; omega
    · intro m s heq
      exact missedStartsLoop_ok_bound next cur 101 0 rfl (by omega) _ 0 m s heq
  · rw [if_neg he]
    cases hloop : missedStartsLoop next cur
        (next (earliestStart creationTime lastScheduleTime startingDeadlineSeconds cur)) 0 0 with
    | error e =>
      have hmsg := missedStartsLoop_error_msg next cur 101 0 rfl _ 0 e hloop
      subst hmsg
      refine ⟨fun _ => rfl, ?_, ?_⟩
      · constructor
        · intro _
          refine ⟨by omega, ?_⟩
          have hiter := (missedStartsLoop_error_iff next cur 101 0 rfl (by omega)
            (next (earliestStart creationTime lastScheduleTime startingDeadlineSeconds cur))
            0).mp hloop
          exact (hshift _).mp hiter
        · intro _
          rfl
      · intro m s heq
        exact absurd heq (by simp)
    | ok p =>
      cases p with
      | mk lastMissed s =>
        refine ⟨fun h => absurd rfl h, ?_, ?_⟩
        · constructor
          · intro h; simp at h
          · intro h
            have herr := (missedStartsLoop_error_iff next cur 101 0 rfl (by omega)
              (next (earliestStart creationTime lastScheduleTime startingDeadlineSeconds cur))
              0).mpr ((hshift _).mpr h.2)
            rw [hloop] at herr
            exact absurd herr (by simp)
        · intro m s2 heq
          simp only [Except.ok.injEq, Prod.mk.injEq] at heq
          have hs := missedStartsLoop_ok_bound next cur 101 0 rfl (by omega)
            (next (earliestStart creationTime lastScheduleTime startingDeadlineSeconds cur))
            0 lastMissed s hloop
          omega

set_option maxRecDepth 8000 in
/-- Witness: with a schedule whose Next is constantly the instant 1 and
now = 1, every candidate start time is missed, so the scheduler aborts with
zero times and the documented error. -/
theorem getNextScheduleTime_cron_bound_witness :
    (getNextScheduleTime (fun _ => 1) 0 none none 1).2.2 = some tooManyStartsMsg :=
  ((getNextScheduleTime_cron_bound (fun _ => 1) 0 none none 1).2.1).mpr
    ⟨by decide, by decide⟩

/-- Lookup in the name-to-action index (Go map lookup). -/
def lookupIndex (idx : List (String × Action)) (name : String) : Option Action :=
  (idx.find? (fun p => p.1 == name)).map (fun p => p.2)

/-- Go map assignment `index[name] = a`: replace if the key is present,
append otherwise. -/
def indexInsert (idx : List (String × Action)) (name : String) (a : Action) :
    List (String × Action) :=
  if idx.any (fun p => p.1 == name) then
    idx.map (fun p => if p.1 == name then (name, a) else p)
  else
    idx ++ [(name, a)]

/-- Outcome of ValidateDAG: nil error, an error, or a Go runtime panic (the
nil-pointer dereferences reachable because ValidateDAG never re-checks which
embedded spec is present). -/
inductive VRes
  | pass
  | fail (msg : String)
  | panicked
deriving DecidableEq, Repr

/-- First loop of ValidateDAG (workflow/validate.go, lines 39-47): qualify
each name and build the index — with NO duplicate check, a colliding name
silently overwrites the earlier entry.  `isQualifiedName` is the external
k8s.io validation.IsQualifiedName, returning the list of grammar errors. -/
def validateDAGBuild (isQualifiedName : String → List String) :
    List Action → List (String × Action) → Except String (List (String × Action))
  | [], idx => Except.ok idx
  | a :: rest, idx =>
    if (isQualifiedName a.name).length != 0 then
      Except.error ("invalid actioname " ++ a.name)
    else
      validateDAGBuild isQualifiedName rest (indexInsert idx a.name a)

/-- The Delete-jobs loop of ValidateDAG: each referenced job must exist and
must not itself be a Delete. -/
def validateDeleteJobs (idx : List (String × Action)) (aname : String) :
    List String → VRes
  | [] => VRes.pass
  | j :: rest =>
    match lookupIndex idx j with
    | none => VRes.fail ("job [" ++ j ++ "] of action [" ++ aname ++ "] does not exist")
    | some target =>
      if target.actionType == "Delete" then
        VRes.fail ("cycle deletion. job [" ++ j ++ "] of action [" ++ aname ++ "] is a deletion job")
      else
        validateDeleteJobs idx aname rest

/-- Per-action check of the second ValidateDAG loop: dependency resolution,
assertion validation (`firedState` and `parseAlertExpr` are the external
expression engine and alert parser), and the Delete-jobs check.  Accessing
`action.Delete` with a nil EmbedActions pointer is a Go panic. -/
def validateDAGCheckOne (firedState : String → Except String (String × Bool))
    (parseAlertExpr : String → Except String Unit) (idx : List (String × Action))
    (a : Action) : VRes :=
  let depsOK : Bool :=
    match a.dependsOn with
    | none => true
    | some deps =>
      deps.success.all (fun d => (lookupIndex idx d).isSome) &&
      deps.running.all (fun d => (lookupIndex idx d).isSome)
  if depsOK = false then
    VRes.fail ("invalid dependency. action [" ++ a.name ++ "]")
  else
    let assertRes : VRes :=
      if a.assert.isZero = false then
        match a.embedActions with
        | none => VRes.panicked
        | some emb =>
          if emb.delete.isSome then
            VRes.fail "Delete job cannot have assertion"
          else if a.assert.hasStateExpr then
            match firedState a.assert.state with
            | Except.error e => VRes.fail ("Invalid state expr for action " ++ a.name ++ ": " ++ e)
            | Except.ok _ =>
              if a.assert.hasMetricsExpr then
                match parseAlertExpr a.assert.metrics with
                | Except.error e =>
                  VRes.fail ("Invalid metrics expr for action " ++ a.name ++ ": " ++ e)
                | Except.ok _ => VRes.pass
              else
                VRes.pass
          else if a.assert.hasMetricsExpr then
            match parseAlertExpr a.assert.metrics with
            | Except.error e => VRes.fail ("Invalid metrics expr for action " ++ a.name ++ ": " ++ e)
            | Except.ok _ => VRes.pass
          else
            VRes.pass
      else
        VRes.pass
    match assertRes with
    | VRes.pass =>
      if a.actionType == "Delete" then
        match a.embedActions with
        | none => VRes.panicked
        | some emb =>
          match emb.delete with
          | none => VRes.panicked
          | some d => validateDeleteJobs idx a.name d.jobs
      else
        VRes.pass
    | r => r

/-- Second loop of ValidateDAG over all actions, stopping at the first
non-pass. -/
def validateDAGLoop (firedState : String → Except String (String × Bool))
    (parseAlertExpr : String → Except String Unit) (idx : List (String × Action)) :
    List Action → VRes
  | [] => VRes.pass
  | a :: rest =>
    match validateDAGCheckOne firedState parseAlertExpr idx a with
    | VRes.pass => validateDAGLoop firedState parseAlertExpr idx rest
    | r => r

/-- ValidateDAG (controllers/workflow/validate.go): qualify names and build
the index, then validate dependencies, assertions and delete references. -/
def ValidateDAG (isQualifiedName : String → List String)
    (firedState : String → Except String (String × Bool))
    (parseAlertExpr : String → Except String Unit) (list : List Action) : VRes :=
  match validateDAGBuild isQualifiedName list [] with
  | Except.error e => VRes.fail e
  | Except.ok idx => validateDAGLoop firedState parseAlertExpr idx list

/-- isSupported of PrepareDependencyGraph: the declared ActionType has its
embedded spec present. -/
def isSupported (a : Action) : Bool :=
  match a.embedActions with
  | none => false
  | some emb =>
    match a.actionType with
    | "Service" => emb.service.isSome
    | "Cluster" => emb.cluster.isSome
    | "Chaos" => emb.chaos.isSome
    | "Cascade" => emb.cascade.isSome
    | "Delete" => emb.delete.isSome
    | "Call" => emb.call.isSome
    | _ => false

/-- The index-building loop of PrepareDependencyGraph
(controllers/testplan/graph.go, lines 98-118): supported type, qualified
name, and failure on a name collision. -/
def prepareDependencyGraphLoop (isQualifiedName : String → List String) :
    List Action → List (String × Action) → Except String (List (String × Action))
  | [], idx => Except.ok idx
  | a :: rest, idx =>
    if isSupported a = false then
      Except.error ("incorrent spec for type [" ++ a.actionType ++ "] of action [" ++ a.name ++ "]")
    else if (isQualifiedName a.name).length != 0 then
      Except.error ("invalid actioname " ++ a.name)
    else if (lookupIndex idx a.name).isSome then
      Except.error ("Duplicate action [" ++ a.name ++ "]")
    else
      prepareDependencyGraphLoop isQualifiedName rest (idx ++ [(a.name, a)])

/-- PrepareDependencyGraph (controllers/testplan/graph.go). -/
def PrepareDependencyGraph (isQualifiedName : String → List String)
    (actionList : List Action) : Except String (List (String × Action)) :=
  prepareDependencyGraphLoop isQualifiedName actionList []

/-- A well-formed Service action named dup. -/
def exDupAction : Action where
  name := "dup"
  actionType := "Service"
  dependsOn := none
  assert := { state := "", metrics := "" }
  embedActions := some { service := some (), cluster := none, chaos := none,
                         cascade := none, call := none, delete := none }

/-- The qualified-name oracle reporting every name as valid (the actual k8s
validator accepts the name dup). -/
def noNameErrs : String → List String := fun _ => []

/-- Expression oracles that accept everything (no asserts are present in the
duplicate-name example, so they are never consulted). -/
def okFiredState : String → Except String (String × Bool) := fun _ => Except.ok ("", false)

/-- Alert-parsing oracle that accepts everything. -/
def okParseAlert : String → Except String Unit := fun _ => Except.ok ()

/-- C6 (code evaluation at the failing input): for the plan [dup, dup] with
two identically named actions, ValidateDAG returns nil — its index build has
no duplicate check, the second entry silently overwrites the first, in
contradiction with its own doc comment (point 2) and the spec — while
PrepareDependencyGraph of the testplan controller rejects the same plan with
a Duplicate action error. -/
theorem validateDAG_accepts_duplicate_names :
    ValidateDAG noNameErrs okFiredState okParseAlert [exDupAction, exDupAction] = VRes.pass ∧
      PrepareDependencyGraph noNameErrs [exDupAction, exDupAction] =
        Except.error ("Duplicate action [" ++ exDupAction.name ++ "]") :=
  ⟨rfl, rfl⟩

/-- Container states of corev1: only the fields read by the accessor. -/
structure ContainerStateWaiting where
  reason : String
deriving DecidableEq, Repr

/-- corev1.ContainerStateRunning. -/
structure ContainerStateRunning where
  startedAt : Int
deriving DecidableEq, Repr

/-- corev1.ContainerStateTerminated. -/
structure ContainerStateTerminated where
  exitCode : Int
  reason : String
  startedAt : Int
  finishedAt : Int
deriving DecidableEq, Repr

/-- corev1.ContainerState: three pointers of which at most one is set. -/
structure ContainerState where
  waiting : Option ContainerStateWaiting
  running : Option ContainerStateRunning
  terminated : Option ContainerStateTerminated
deriving DecidableEq, Repr

/-- corev1.ContainerStatus: name and state. -/
structure ContainerStatus where
  name : String
  state : ContainerState
deriving DecidableEq, Repr

/-- The pod as read by the Containers adapter: its container statuses. -/
structure PodModel where
  containerStatuses : List ContainerStatus
deriving DecidableEq, Repr

/-- The per-container lifecycle entries produced by the accessor (the older
v1alpha1.Lifecycle with Kind/Name/Phase/Reason and times). -/
structure LifecycleEntry where
  kind : String
  name : String
  phase : Phase
  reason : String
  startTime : Option Int
  endTime : Option Int
deriving DecidableEq, Repr

/-- strings.Contains(name, "-"): for the one-character pattern, containment
of the dash character among the name's characters. -/
def nameHasDash (s : String) : Bool :=
  s.data.contains ('-')

/-- The loop of the Containers adapter
(controllers/common/lifecycle/accessor.go, lines 79-134): skip any container
whose name contains a dash, then translate the waiting/running/terminated
state. -/
def containersLoop : List ContainerStatus → List LifecycleEntry
  | [] => []
  | c :: rest =>
    if nameHasDash c.name then
      containersLoop rest
    else
      match c.state.waiting, c.state.running, c.state.terminated with
      | some w, _, _ =>
        ⟨"Container", c.name, .pending, w.reason, none, none⟩ :: containersLoop rest
      | none, some r, _ =>
        ⟨"Container", c.name, .running, "container is started", some r.startedAt, none⟩ ::
          containersLoop rest
      | none, none, some t =>
        if t.exitCode = 0 then
          ⟨"Container", c.name, .success, t.reason, some t.startedAt, some t.finishedAt⟩ ::
            containersLoop rest
        else
          ⟨"Container", c.name, .failed, t.reason, some t.startedAt, some t.finishedAt⟩ ::
            containersLoop rest
      | none, none, none => containersLoop rest

/-- Containers (controllers/common/lifecycle/accessor.go): translate each
container status of a pod into a Frisbee lifecycle entry. -/
def Containers (pod : PodModel) : List LifecycleEntry :=
  containersLoop pod.containerStatuses

/-- Every entry emitted by the container loop carries a dash-free name. -/
theorem containersLoop_no_dash (statuses : List ContainerStatus) (l : LifecycleEntry)
    (hmem : l ∈ containersLoop statuses) : nameHasDash l.name = false := by
  induction statuses with
  | nil =>
    simp [containersLoop] at hmem
  | cons c rest ih =>
    rw [containersLoop] at hmem
    by_cases hdash : nameHasDash c.name
    · rw [if_pos hdash] at hmem
      exact ih hmem
    · rw [if_neg hdash] at hmem
      rcases hw : c.state.waiting with _ | w
      · rcases hr : c.state.running with _ | r
        · rcases ht : c.state.terminated with _ | t
          · simp only [hw, hr, ht] at hmem
            exact ih hmem
          · simp only [hw, hr, ht] at hmem
            by_cases hexit : t.exitCode = 0
            · rw [if_pos hexit] at hmem
              rcases List.mem_cons.mp hmem with h | h
              · subst h; simpa using hdash
              · exact ih h
            · rw [if_neg hexit] at hmem
              rcases List.mem_cons.mp hmem with h | h
              · subst h; simpa using hdash
              · exact ih h
        · simp only [hw, hr] at hmem
          rcases List.mem_cons.mp hmem with h | h
          · subst h; simpa using hdash
          · exact ih h
      · simp only [hw] at hmem
        rcases List.mem_cons.mp hmem with h | h
        · subst h; simpa using hdash
        · exact ih h

/-- C10: the Containers adapter emits no entry for a container whose name
contains a dash: every emitted entry's name is dash-free, whatever the
waiting/running/terminated state of the containers — so dashed (sidecar)
containers never contribute to the per-container classification. -/
theorem containers_skip_dashed_names (pod : PodModel) (l : LifecycleEntry)
    (hmem : l ∈ Containers pod) : nameHasDash l.name = false :=
  containersLoop_no_dash pod.containerStatuses l hmem

/-- A pod with a dashed sidecar and a plain app container, both running. -/
def exPod : PodModel :=
  ⟨[⟨"side-car", ⟨none, some ⟨0⟩, none⟩⟩, ⟨"app", ⟨none, some ⟨3⟩, none⟩⟩]⟩

/-- Witness: the entry emitted for exPod has a dash-free name (and the
dashed sidecar produced no entry at all). -/
theorem containers_skip_dashed_names_witness :
    nameHasDash (LifecycleEntry.mk "Container" "app" .running "container is started"
        (some 3) none).name = false :=
  containers_skip_dashed_names exPod
    (LifecycleEntry.mk "Container" "app" .running "container is started" (some 3) none)
    (by decide)

/-- The rendered spec of an imported telemetry monitor: its containers and
its volumes, both abstracted to identifiers. -/
structure MonitorSpec where
  containers : List String
  volumes : List String
deriving DecidableEq, Repr

/-- The telemetry-import step of decoratePod (service controller): for each
monitor reference resolve the monitor spec (`getMonitor` stands for the
template-resolving GetServiceSpec collaborator), require exactly one
container, then append the container and append the monitor volumes — twice,
exactly as the source does on its two consecutive append lines. -/
def importTelemetry (getMonitor : String → Except String MonitorSpec) :
    List String → List String → List String → Except String (List String × List String)
  | [], containers, volumes => Except.ok (containers, volumes)
  | monRef :: rest, containers, volumes =>
    match getMonitor monRef with
    | Except.error e => Except.error ("cannot get monitor: " ++ e)
    | Except.ok monSpec =>
      match monSpec.containers with
      | [c] =>
        importTelemetry getMonitor rest (containers ++ [c])
          (volumes ++ monSpec.volumes ++ monSpec.volumes)
      | _ => Except.error ("telemetry sidecar [" ++ monRef ++ "] expected 1 container")

/-- C9 (code evaluation at the failing input): importing one monitor whose
spec has a single volume leaves TWO copies of that volume in the service
spec — the double append — where the claim requires exactly one. -/
theorem importTelemetry_duplicates_volumes :
    importTelemetry (fun _ => Except.ok ⟨["agent"], ["vol"]⟩) ["mon"] [] [] =
      Except.ok (["agent"], ["vol", "vol"]) :=
  rfl

end Frisbee
